import Mathlib

/-!
Verification of the HazeSDK discovery-and-access core: the signature-based
structure locator (`core/offset_scanner.py`), the cached typed memory
accessor (`core/memory_manager.py`), the TTL cache (`utils/cache.py`) and
the continuous input-writer lifecycle (`main.py`).

Process memory is modelled as an incomplete byte map `Int → Option Nat`
(an unmapped address yields `none`, which is how an underlying
`ReadProcessMemory` failure surfaces).  Python ints are unbounded, so
addresses are `Int`; 32-bit float fields are modelled by their IEEE-754
bit patterns (`Nat < 2^32`), so `struct.pack`/`struct.unpack` of a float
is exact byte (de)composition of the bit pattern.  Wall-clock time is
modelled as an explicit rational parameter passed to each cache operation.
-/

namespace HazeSDK

/-- A snapshot of foreign process memory: each address is either mapped to
a byte value or unmapped (reads touching it fail). -/
def Mem : Type := Int → Option Nat

/-- Raw `pymem`-level read of `n` consecutive bytes starting at `a`:
succeeds (returning the bytes) iff every byte of the range is mapped,
mirroring an all-or-nothing `ReadProcessMemory` syscall. -/
def rawReadBytes (mem : Mem) (a : Int) : Nat → Option (List Nat)
  | 0 => some []
  | n + 1 =>
    match mem a, rawReadBytes mem (a + 1) n with
    | some b, some bs => some (b :: bs)
    | _, _ => none

/-- Little-endian value of 4 bytes. -/
def dec4 (b₀ b₁ b₂ b₃ : Nat) : Nat :=
  b₀ + 256 * b₁ + 65536 * b₂ + 16777216 * b₃

/-- `struct.unpack` of an unsigned 32-bit field from the head of a byte
list (callers always supply exactly 4 bytes). -/
def decodeU32 : List Nat → Nat
  | b₀ :: b₁ :: b₂ :: b₃ :: _ => dec4 b₀ b₁ b₂ b₃
  | _ => 0

/-- `struct.unpack` of an unsigned 64-bit field from the head of a byte
list (callers always supply exactly 8 bytes). -/
def decodeU64 : List Nat → Nat
  | b₀ :: b₁ :: b₂ :: b₃ :: b₄ :: b₅ :: b₆ :: b₇ :: _ =>
    dec4 b₀ b₁ b₂ b₃ + 4294967296 * dec4 b₄ b₅ b₆ b₇
  | _ => 0

/-- Reinterpret an unsigned 32-bit value as a two's-complement signed one
(the `struct.unpack('i', ...)` view of the same 4 bytes). -/
def toSigned32 (n : Nat) : Int :=
  if n < 2147483648 then (n : Int) else (n : Int) - 4294967296

/-- Little-endian encode of `n % 2^32` into 4 bytes (`struct.pack('<I')`). -/
def encodeU32LE (n : Nat) : List Nat :=
  [n % 256, n / 256 % 256, n / 65536 % 256, n / 16777216 % 256]

/-- Little-endian encode of a signed 32-bit value (`struct.pack('<i')`):
the two's-complement bit pattern, byte by byte. -/
def encodeI32LE (d : Int) : List Nat :=
  encodeU32LE (d % 4294967296).toNat

theorem rawReadBytes_length (mem : Mem) :
    ∀ (n : Nat) (a : Int) (l : List Nat), rawReadBytes mem a n = some l → l.length = n := by
  intro n
  induction n with
  | zero => intro a l h; simp [rawReadBytes] at h; simp [← h]
  | succ n ih =>
    intro a l h
    simp only [rawReadBytes] at h
    cases hm : mem a with
    | none => rw [hm] at h; simp at h
    | some b =>
      rw [hm] at h
      cases hr : rawReadBytes mem (a + 1) n with
      | none => rw [hr] at h; simp at h
      | some bs =>
        rw [hr] at h
        simp at h
        rw [← h]
        simp [ih (a + 1) bs hr]

theorem rawReadBytes_split (mem : Mem) (m n : Nat) :
    ∀ (a : Int) (l : List Nat), rawReadBytes mem a (m + n) = some l →
      ∃ l₁ l₂, rawReadBytes mem a m = some l₁ ∧
        rawReadBytes mem (a + m) n = some l₂ ∧ l = l₁ ++ l₂ := by
  induction m with
  | zero =>
    intro a l h
    refine ⟨[], l, rfl, ?_, rfl⟩
    simpa using h
  | succ m ih =>
    intro a l h
    have hsucc : m + 1 + n = (m + n) + 1 := by omega
    rw [hsucc] at h
    simp only [rawReadBytes] at h
    cases hm : mem a with
    | none => rw [hm] at h; simp at h
    | some b =>
      rw [hm] at h
      cases hr : rawReadBytes mem (a + 1) (m + n) with
      | none => rw [hr] at h; simp at h
      | some bs =>
        rw [hr] at h
        simp at h
        obtain ⟨l₁, l₂, h₁, h₂, h₃⟩ := ih (a + 1) bs hr
        refine ⟨b :: l₁, l₂, ?_, ?_, by simp [← h, h₃]⟩
        · simp [rawReadBytes, hm, h₁]
        · have : a + 1 + (m : Int) = a + (m + 1 : Nat) := by push_cast; ring
          rw [← this]; exact h₂

/-! ### Accessor-level byte read

`MemoryManager.read_bytes` wraps the raw read in a `try/except` that
returns `size` zero bytes on failure. -/

/-- `MemoryManager.read_bytes`: the raw `n`-byte read, degraded to a
buffer of `n` zero bytes when the underlying access fails. -/
def readBytes (mem : Mem) (a : Int) (n : Nat) : List Nat :=
  match rawReadBytes mem a n with
  | some bs => bs
  | none => List.replicate n 0

/-! ### Pattern matcher and scanner (`OffsetScanner`) -/

/-- `OffsetScanner._pattern_matches`: every pattern byte must equal the
buffer byte at the corresponding position, except that a pattern byte
`0x00` is a wildcard and matches anything. -/
def patternMatches (memory : List Nat) (offset : Nat) : List Nat → Nat → Bool
  | [], _ => true
  | byte :: rest, i =>
    if byte ≠ 0 ∧ memory.getD (offset + i) 0 ≠ byte then false
    else patternMatches memory offset rest (i + 1)

/-- `OffsetScanner._scan_pattern`, index part: the Python loop
`for i in range(len(memory_dump) - len(pattern))` returning the first `i`
at which the pattern matches, `none` otherwise.  Note the iteration stops
at `len(dump) - len(pattern) - 1`. -/
def scanPattern (dump pattern : List Nat) : Option Nat :=
  (List.range (dump.length - pattern.length)).find?
    (fun i => patternMatches dump i pattern 0)

/-! ### Displacement decoding (`AddressResolver` extraction methods) -/

/-- `struct.unpack('i', mm.read_bytes(a, 4))[0]`: the signed 32-bit
little-endian value at address `a` (0 when the read fails, because
`read_bytes` degrades to zero bytes). -/
def readI32 (mem : Mem) (a : Int) : Int :=
  toSigned32 (decodeU32 (readBytes mem a 4))

/-- `OffsetScanner._extract_gobjects_current`: displacement field at
`pattern_addr + 6`. -/
def extractGobjectsCurrent (mem : Mem) (pattern_addr : Int) : Int :=
  let offset_addr := pattern_addr + 6
  offset_addr + readI32 mem offset_addr + 4

/-- `OffsetScanner._extract_gnames_method1`: displacement field at
`pattern_addr + 3`. -/
def extractGnamesMethod1 (mem : Mem) (pattern_addr : Int) : Int :=
  let offset_addr := pattern_addr + 3
  offset_addr + readI32 mem offset_addr + 4

/-- `OffsetScanner._extract_gnames_method2`: displacement field at
`pattern_addr + 10`. -/
def extractGnamesMethod2 (mem : Mem) (pattern_addr : Int) : Int :=
  let offset_addr := pattern_addr + 10
  offset_addr + readI32 mem offset_addr + 4

/-- `OffsetScanner._extract_legacy_gnames`: first hop at sub-offset 3,
fixed delta `0x27`, second identical decode at sub-offset 3. -/
def extractLegacyGnames (mem : Mem) (pattern_addr : Int) : Int :=
  let offset₁ := pattern_addr + 3
  let addr := offset₁ + readI32 mem offset₁ + 4 + 0x27
  let offset₂ := addr + 3
  offset₂ + readI32 mem offset₂ + 4

/-- `OffsetScanner._extract_legacy_gobjects`: first hop at sub-offset 1,
fixed delta `0x65`, second decode at sub-offset 3. -/
def extractLegacyGobjects (mem : Mem) (pattern_addr : Int) : Int :=
  let offset₁ := pattern_addr + 1
  let addr := offset₁ + readI32 mem offset₁ + 4 + 0x65
  let offset₂ := addr + 3
  offset₂ + readI32 mem offset₂ + 4

/-! ### Static signature configuration (`utils/constants.py`) -/

/-- `MEMORY_PATTERNS['GObjects_Current']` (`0x00` bytes are wildcards). -/
def patGObjectsCurrent : List Nat :=
  [0x48, 0x8B, 0xC8, 0x48, 0x8B, 0x05, 0, 0, 0, 0, 0x48, 0x8B, 0x0C, 0xC8]

/-- `MEMORY_PATTERNS['GNames_Current1']`. -/
def patGNamesCurrent1 : List Nat :=
  [0x48, 0x8B, 0x0D, 0, 0, 0, 0, 0x48, 0x8B, 0x0C, 0xC1]

/-- `MEMORY_PATTERNS['GNames_Current2']`. -/
def patGNamesCurrent2 : List Nat :=
  [0x49, 0x63, 0x06, 0x48, 0x8D, 0x55, 0xE8, 0x48, 0x8B, 0x0D, 0, 0, 0, 0,
   0x48, 0x8B, 0x0C, 0xC1]

/-- `MEMORY_PATTERNS['GNames_Legacy1']`. -/
def patGNamesLegacy1 : List Nat :=
  [0x75, 0x05, 0xE8, 0, 0, 0, 0, 0x85, 0xDB, 0x75, 0x31]

/-- `MEMORY_PATTERNS['GObjects_Legacy1']`. -/
def patGObjectsLegacy1 : List Nat :=
  [0xE8, 0, 0, 0, 0, 0x8B, 0x5D, 0xBF, 0x48]

/-- `EXPECTED_OFFSET_DIFF = 0x48`: the structural invariant, the known byte
distance between the GNames and GObjects globals. -/
def EXPECTED_OFFSET_DIFF : Nat := 0x48

/-! ### Structure locator (`OffsetScanner.find_offsets`) -/

/-- Python truthiness of an `Optional[int]`: `None` and `0` are falsy. -/
def truthy : Option Int → Bool
  | none => false
  | some v => v != 0

/-- One `_scan_pattern` call followed by the guarded extraction
(`if pattern_addr: addr = extract(pattern_addr)`), as it appears in
`find_offsets` and `_try_legacy_patterns`: yields the extracted address
when the pattern is found at a truthy absolute address, `none` otherwise. -/
def scanExtract (dump : List Nat) (mem : Mem) (base : Int) (pat : List Nat)
    (extract : Mem → Int → Int) : Option Int :=
  match scanPattern dump pat with
  | some i => if base + (i : Int) = 0 then none else some (extract mem (base + (i : Int)))
  | none => none

/-- The invariant-validation step of `find_offsets` (lines 98-103): when
`abs(gobjects - gnames) ≠ EXPECTED_OFFSET_DIFF`, GObjects is kept and
GNames is recomputed as `gobjects - EXPECTED_OFFSET_DIFF`. -/
def correctAddresses (gnames gobjects : Int) : Int × Int :=
  if (gobjects - gnames).natAbs ≠ EXPECTED_OFFSET_DIFF then
    (gobjects - (EXPECTED_OFFSET_DIFF : Int), gobjects)
  else (gnames, gobjects)

/-- `OffsetScanner._try_legacy_patterns`: fill whichever of the two
addresses is still falsy from the legacy patterns. -/
def tryLegacyPatterns (dump : List Nat) (mem : Mem) (base : Int)
    (gnames gobjects : Option Int) : Option Int × Option Int :=
  let gnames' := if truthy gnames then gnames
    else match scanExtract dump mem base patGNamesLegacy1 extractLegacyGnames with
      | some e => some e
      | none => gnames
  let gobjects' := if truthy gobjects then gobjects
    else match scanExtract dump mem base patGObjectsLegacy1 extractLegacyGobjects with
      | some e => some e
      | none => gobjects
  (gnames', gobjects')

/-- The tail of `find_offsets` (lines 98-116): when both addresses are
truthy, validate/correct the pair and convert to module-relative
offsets; otherwise return `(None, None)`. -/
def finalizeOffsets (base : Int) : Option Int × Option Int → Option Int × Option Int
  | (some gn, some go) =>
    if gn ≠ 0 ∧ go ≠ 0 then
      let corrected := correctAddresses gn go
      (some (corrected.1 - base), some (corrected.2 - base))
    else (none, none)
  | _ => (none, none)

/-- `OffsetScanner.find_offsets`: the whole pipeline on a module of the
given base and size — dump the image, try the current patterns (GNames
method 1 then method 2), fall back to the legacy patterns, validate and
correct the pair against `EXPECTED_OFFSET_DIFF`, and convert both
addresses to module-relative offsets; `(none, none)` when either address
is still falsy. -/
def findOffsets (mem : Mem) (base : Int) (size : Nat) : Option Int × Option Int :=
  let dump := readBytes mem base size
  let gobjects₁ := scanExtract dump mem base patGObjectsCurrent extractGobjectsCurrent
  let gnames₁ := scanExtract dump mem base patGNamesCurrent1 extractGnamesMethod1
  let gnames₂ := if truthy gnames₁ then gnames₁
    else match scanExtract dump mem base patGNamesCurrent2 extractGnamesMethod2 with
      | some e => some e
      | none => gnames₁
  let pair :=
    if ¬ truthy gnames₂ ∨ ¬ truthy gobjects₁ then
      tryLegacyPatterns dump mem base gnames₂ gobjects₁
    else (gnames₂, gobjects₁)
  finalizeOffsets base pair

/-! ### Typed memory accessor (`MemoryManager`), uncached read path

Each primitive mirrors the corresponding `MemoryManager` method at
`use_cache=False` (the default): the underlying `pymem` read is attempted
and any failure is absorbed into the documented zero-value sentinel. -/

/-- `MemoryManager.read_int`: signed 32-bit read, `0` on failure. -/
def readInt (mem : Mem) (a : Int) : Int :=
  match rawReadBytes mem a 4 with
  | some bs => toSigned32 (decodeU32 bs)
  | none => 0

/-- `MemoryManager.read_uint`: unsigned 32-bit read, `0` on failure. -/
def readUint (mem : Mem) (a : Int) : Nat :=
  match rawReadBytes mem a 4 with
  | some bs => decodeU32 bs
  | none => 0

/-- `MemoryManager.read_longlong`: unsigned 64-bit (pointer) read, `0` on
failure. -/
def readLonglong (mem : Mem) (a : Int) : Nat :=
  match rawReadBytes mem a 8 with
  | some bs => decodeU64 bs
  | none => 0

/-- `MemoryManager.read_float`: 32-bit float read, represented by its
IEEE-754 bit pattern; the sentinel `0.0` is bit pattern `0`. -/
def readFloat (mem : Mem) (a : Int) : Nat :=
  match rawReadBytes mem a 4 with
  | some bs => decodeU32 bs
  | none => 0

/-- `MemoryManager.read_uchar`: single-byte read, `0` on failure. -/
def readUchar (mem : Mem) (a : Int) : Nat :=
  match rawReadBytes mem a 1 with
  | some bs => bs.getD 0 0
  | none => 0

/-- `MemoryManager.read_string`: length-prefixed wide string — pointer at
`a`, count at `a + 8`; rejected (empty) when the pointer is null or the
count is `≤ 1` or exceeds `max_length`.  The result is modelled as the
raw UTF-16LE byte list that Python then decodes; the empty-string
sentinel is `[]`. -/
def readString (mem : Mem) (a : Int) (max_length : Nat) : List Nat :=
  let array_data_address := readLonglong mem a
  if array_data_address = 0 then []
  else
    let array_count := readInt mem (a + 8)
    if array_count ≤ 1 ∨ array_count > (max_length : Int) then []
    else
      let bytes_to_read := min ((array_count - 1).toNat * 2) (max_length * 2)
      readBytes mem (array_data_address : Int) bytes_to_read

/-- `struct.unpack('<fff', data)`: three float bit patterns, defined only
when the buffer has exactly 12 bytes (otherwise Python raises, which the
caller's `except` branch turns into the zero-vector). -/
def unpackF32x3 : List Nat → Option (Nat × Nat × Nat)
  | [b₀, b₁, b₂, b₃, b₄, b₅, b₆, b₇, b₈, b₉, b₁₀, b₁₁] =>
    some (dec4 b₀ b₁ b₂ b₃, dec4 b₄ b₅ b₆ b₇, dec4 b₈ b₉ b₁₀ b₁₁)
  | _ => none

/-- `MemoryManager.read_vector3`: one 12-byte read decoded as three
little-endian floats, `(0,0,0)` on unpack failure. -/
def readVector3 (mem : Mem) (a : Int) : Nat × Nat × Nat :=
  match unpackF32x3 (readBytes mem a 12) with
  | some t => t
  | none => (0, 0, 0)

/-- The fixed int→radians scale `to_rad = 0.00009587379924285` from
`read_rotator`, as an exact rational. -/
def toRadConst : ℚ := 9587379924285 / 100000000000000000

/-- `struct.unpack('<iii', data)`: three signed 32-bit ints, defined only
when the buffer has exactly 12 bytes. -/
def unpackI32x3 : List Nat → Option (Int × Int × Int)
  | [b₀, b₁, b₂, b₃, b₄, b₅, b₆, b₇, b₈, b₉, b₁₀, b₁₁] =>
    some (toSigned32 (dec4 b₀ b₁ b₂ b₃), toSigned32 (dec4 b₄ b₅ b₆ b₇),
      toSigned32 (dec4 b₈ b₉ b₁₀ b₁₁))
  | _ => none

/-- `MemoryManager.read_rotator`: one 12-byte read decoded as three
signed ints, each scaled by `to_rad`; `(0,0,0)` on unpack failure. -/
def readRotator (mem : Mem) (a : Int) : ℚ × ℚ × ℚ :=
  match unpackI32x3 (readBytes mem a 12) with
  | some (p, y, r) => ((p : ℚ) * toRadConst, (y : ℚ) * toRadConst, (r : ℚ) * toRadConst)
  | none => (0, 0, 0)

/-- The dictionary produced by `MemoryManager.read_vehicle_inputs`: seven
float bit patterns and the three decoded flag bits. -/
structure DecodedInputs where
  throttle : Nat
  steer : Nat
  pitch : Nat
  yaw : Nat
  roll : Nat
  dodge_forward : Nat
  dodge_right : Nat
  handbrake : Nat
  jump : Nat
  boost : Nat
  deriving Repr, DecidableEq

/-- The all-zero dictionary of the `except` branch of
`read_vehicle_inputs`. -/
def zeroDecodedInputs : DecodedInputs :=
  ⟨0, 0, 0, 0, 0, 0, 0, 0, 0, 0⟩

/-- The unpack part of `read_vehicle_inputs`: `'<7f'` over the first 28
bytes and `'<I'` over the last 4, with the flag word's low 3 bits split
out; defined only when the buffer has exactly 32 bytes. -/
def unpackVehicleInputs : List Nat → Option DecodedInputs
  | [b₀, b₁, b₂, b₃, b₄, b₅, b₆, b₇, b₈, b₉, b₁₀, b₁₁, b₁₂, b₁₃, b₁₄, b₁₅,
     b₁₆, b₁₇, b₁₈, b₁₉, b₂₀, b₂₁, b₂₂, b₂₃, b₂₄, b₂₅, b₂₆, b₂₇,
     b₂₈, b₂₉, b₃₀, b₃₁] =>
    let flags := dec4 b₂₈ b₂₉ b₃₀ b₃₁
    some
      { throttle := dec4 b₀ b₁ b₂ b₃
        steer := dec4 b₄ b₅ b₆ b₇
        pitch := dec4 b₈ b₉ b₁₀ b₁₁
        yaw := dec4 b₁₂ b₁₃ b₁₄ b₁₅
        roll := dec4 b₁₆ b₁₇ b₁₈ b₁₉
        dodge_forward := dec4 b₂₀ b₂₁ b₂₂ b₂₃
        dodge_right := dec4 b₂₄ b₂₅ b₂₆ b₂₇
        handbrake := flags &&& 1
        jump := (flags >>> 1) &&& 1
        boost := (flags >>> 2) &&& 1 }
  | _ => none

/-- `MemoryManager.read_vehicle_inputs`: one 32-byte read decoded into the
named input fields, the all-zero dictionary on unpack failure. -/
def readVehicleInputs (mem : Mem) (a : Int) : DecodedInputs :=
  match unpackVehicleInputs (readBytes mem a 32) with
  | some d => d
  | none => zeroDecodedInputs

/-! ### Writes -/

/-- Writability of the target address space: whether a raw write of the
given length at the given address succeeds (the `pymem.write_bytes` call
not raising). -/
def Writable : Type := Int → Nat → Bool

/-- `MemoryManager.write_bytes`: returns `True` exactly when the
underlying raw write succeeds, `False` otherwise — never raises. -/
def writeBytes (w : Writable) (a : Int) (data : List Nat) : Bool :=
  w a data.length

/-- The named control-input structure passed to
`MemoryManager.write_vehicle_inputs`: five float fields (IEEE-754 bit
patterns) and three boolean flags. -/
structure VehicleInputs where
  throttle : Nat
  steer : Nat
  pitch : Nat
  yaw : Nat
  roll : Nat
  handbrake : Bool
  jump : Bool
  boost : Bool
  deriving Repr, DecidableEq

/-- IEEE-754 single-precision negation: flip the sign bit (used for the
`dodge_forward = -pitch` slot of the packed buffer). -/
def negF32 (x : Nat) : Nat :=
  if x < 2147483648 then x + 2147483648 else x - 2147483648

/-- The flag word packed by `write_vehicle_inputs`: handbrake at bit 0,
jump at bit 1, boost at bits 2 and 3. -/
def packFlags (handbrake jump boost : Bool) : Nat :=
  (if handbrake then 1 else 0) ||| ((if jump then 1 else 0) <<< 1) |||
    ((if boost then 1 else 0) <<< 2) ||| ((if boost then 1 else 0) <<< 3)

/-- The 32-byte buffer packed by `write_vehicle_inputs`: throttle, steer,
pitch, yaw, roll, `-pitch` (dodge_forward), yaw (dodge_right), flags. -/
def packVehicleInputs (i : VehicleInputs) : List Nat :=
  encodeU32LE i.throttle ++ encodeU32LE i.steer ++ encodeU32LE i.pitch ++
    encodeU32LE i.yaw ++ encodeU32LE i.roll ++ encodeU32LE (negF32 i.pitch) ++
    encodeU32LE i.yaw ++ encodeU32LE (packFlags i.handbrake i.jump i.boost)

/-- `MemoryManager.write_vehicle_inputs`: pack and delegate to
`write_bytes`, boolean result. -/
def writeVehicleInputs (w : Writable) (a : Int) (i : VehicleInputs) : Bool :=
  writeBytes w a (packVehicleInputs i)

/-! ### TTL cache (`utils/cache.py`)

Wall-clock time (`time.time()`) is an explicit rational argument `now`;
entries are an association list with at most one live binding per key
(Python dict semantics: `set` replaces, expiry `del`etes). -/

/-- `Cache`: entry store plus hit/miss counters and the construction-time
default TTL. -/
structure Cache (α : Type) where
  default_ttl : ℚ
  entries : List (String × α × ℚ)
  hits : Nat
  misses : Nat

/-- The empty cache produced by `Cache.__init__(default_ttl)` (the
class-level default for the parameter is 0.1 s). -/
def Cache.init (α : Type) (default_ttl : ℚ) : Cache α :=
  ⟨default_ttl, [], 0, 0⟩

/-- The default TTL of the memory manager's cache:
`Cache(default_ttl=0.05)` — 50 ms. -/
def mmCacheDefaultTtl : ℚ := 0.05

/-- Dictionary lookup of a key (value and write timestamp). -/
def Cache.lookup {α : Type} (c : Cache α) (key : String) : Option (α × ℚ) :=
  (c.entries.find? (fun e => e.1 == key)).map (fun e => e.2)

/-- `Cache.get` at time `now` with an optional per-call TTL override:
returns the value and the updated cache.  A missing key counts a miss; an
entry older than the TTL is deleted and counts a miss; otherwise the
value is returned and a hit is counted. -/
def Cache.get {α : Type} (c : Cache α) (key : String) (ttl : Option ℚ)
    (now : ℚ) : Option α × Cache α :=
  match c.entries.find? (fun e => e.1 == key) with
  | none => (none, { c with misses := c.misses + 1 })
  | some (_, value, timestamp) =>
    let age := now - timestamp
    let ttl := ttl.getD c.default_ttl
    if age > ttl then
      (none,
        { c with
          entries := c.entries.eraseP (fun e => e.1 == key)
          misses := c.misses + 1 })
    else (some value, { c with hits := c.hits + 1 })

/-- `Cache.set` at time `now`: store the value under the key with the
current timestamp (replacing any previous binding, as dict assignment
does). -/
def Cache.set {α : Type} (c : Cache α) (key : String) (value : α)
    (now : ℚ) : Cache α :=
  { c with entries := (key, value, now) :: c.entries.eraseP (fun e => e.1 == key) }

/-- `Cache.invalidate`: drop a key if present. -/
def Cache.invalidate {α : Type} (c : Cache α) (key : String) : Cache α :=
  { c with entries := c.entries.eraseP (fun e => e.1 == key) }

/-- `Cache.clear`: drop everything and reset the counters. -/
def Cache.clear {α : Type} (c : Cache α) : Cache α :=
  { c with entries := [], hits := 0, misses := 0 }

/-- The record returned by `Cache.get_stats`. -/
structure CacheStats where
  hits : Nat
  misses : Nat
  hit_rate : ℚ
  size : Nat
  deriving Repr, DecidableEq

/-- `Cache.get_stats`: counters, percentage hit rate and current entry
count. -/
def Cache.stats {α : Type} (c : Cache α) : CacheStats :=
  let total := c.hits + c.misses
  { hits := c.hits
    misses := c.misses
    hit_rate := if total > 0 then (c.hits : ℚ) / (total : ℚ) * 100 else 0
    size := c.entries.length }

/-! ### Continuous input-writer lifecycle (`main.py`)

`start_writing` / `stop_writing` are sequential methods mutating the
bot's writer state; their externally visible effects (thread start, the
final reset write, the sleep, the bounded join) are recorded as an
ordered action trace. -/

/-- The writer-related state of the bot object (`__init__` lines
109-112). -/
structure WriterState where
  write_running : Bool
  input_address : Option Int
  current_inputs : Option VehicleInputs
  thread_alive : Bool

/-- Externally visible effects of the lifecycle methods, in program
order. -/
inductive WriterAction where
  | startThread : WriterAction
  | writeInputs : Int → VehicleInputs → WriterAction
  | sleep : ℚ → WriterAction
  | joinThread : ℚ → WriterAction
  deriving Repr, DecidableEq

/-- The all-neutral `reset_inputs` dictionary built in `stop_writing`:
every float field `0.0`, every flag `False`. -/
def resetInputs : VehicleInputs :=
  ⟨0, 0, 0, 0, 0, false, false, false⟩

/-- `start_writing`: a no-op when the loop is already running; otherwise
set the running flag and start the daemon thread. -/
def startWriting (s : WriterState) : WriterState × List WriterAction :=
  if s.write_running then (s, [])
  else ({ s with write_running := true, thread_alive := true },
    [WriterAction.startThread])

/-- `stop_writing`: a no-op when not running; otherwise clear the running
flag, perform the final reset write (when an input address is known),
sleep 0.1 s, and join the thread with a 1-second timeout. -/
def stopWriting (s : WriterState) : WriterState × List WriterAction :=
  if ¬ s.write_running then (s, [])
  else
    let resetActs :=
      if truthy s.input_address then
        [WriterAction.writeInputs (s.input_address.getD 0) resetInputs,
         WriterAction.sleep 0.1]
      else []
    let joinActs := if s.thread_alive then [WriterAction.joinThread 1] else []
    ({ s with write_running := false }, resetActs ++ joinActs)

/-! ## Theorems -/

theorem decodeU32_encodeU32 (n : Nat) : decodeU32 (encodeU32LE n) = n % 4294967296 := by
  simp only [decodeU32, encodeU32LE, dec4]
  omega

theorem readI32_encoded (mem : Mem) (a : Int) (d : Int)
    (h₁ : -2147483648 ≤ d) (h₂ : d < 2147483648)
    (hmem : rawReadBytes mem a 4 = some (encodeI32LE d)) : readI32 mem a = d := by
  unfold readI32 readBytes
  rw [hmem]
  unfold encodeI32LE
  rw [decodeU32_encodeU32]
  unfold toSigned32
  split <;> omega

/-- C1 (code evaluation at the failing input): with buffer
`[0x11, 0xAA, 0xFF, 0xBB]` and pattern `[0xAA, 0x00, 0xBB]`
(signature length 3 ≤ buffer length 4), the pattern matches at starting
offset 1 — the only feasible offset — yet `_scan_pattern`'s loop
`for i in range(len(dump) - len(pattern))` only tests offset 0 and
returns `None`: the scan misses a match at the last feasible starting
offset `len(buffer) - len(pattern)`. -/
theorem scanPattern_misses_last_offset :
    scanPattern [0x11, 0xAA, 0xFF, 0xBB] [0xAA, 0x00, 0xBB] = none ∧
    patternMatches [0x11, 0xAA, 0xFF, 0xBB] 1 [0xAA, 0x00, 0xBB] 0 = true ∧
    ([0xAA, 0x00, 0xBB] : List Nat).length ≤ ([0x11, 0xAA, 0xFF, 0xBB] : List Nat).length := by
  decide

/-- C2: displacement decode correctness of the address resolver.  If the
4 bytes at `field_addr = pattern_addr + 3` encode the little-endian
signed displacement `d₁`, method 1 returns `field_addr + 4 + d₁`; and if,
at the legacy second hop — sub-offset 3 of the first target shifted by
the fixed delta `0x27` — the 4 bytes encode `d₂`, the legacy extractor
returns that second field address plus `4 + d₂`. -/
theorem address_resolver_displacement (mem : Mem) (pattern_addr d₁ d₂ : Int)
    (h₁ : -2147483648 ≤ d₁) (h₂ : d₁ < 2147483648)
    (h₃ : -2147483648 ≤ d₂) (h₄ : d₂ < 2147483648)
    (hmem₁ : rawReadBytes mem (pattern_addr + 3) 4 = some (encodeI32LE d₁))
    (hmem₂ : rawReadBytes mem (pattern_addr + 3 + 4 + d₁ + 0x27 + 3) 4 =
      some (encodeI32LE d₂)) :
    extractGnamesMethod1 mem pattern_addr = (pattern_addr + 3) + 4 + d₁ ∧
    extractLegacyGnames mem pattern_addr =
      (pattern_addr + 3 + 4 + d₁ + 0x27 + 3) + 4 + d₂ := by
  have e₁ := readI32_encoded mem (pattern_addr + 3) d₁ h₁ h₂ hmem₁
  have e₂ := readI32_encoded mem (pattern_addr + 3 + 4 + d₁ + 0x27 + 3) d₂ h₃ h₄ hmem₂
  constructor
  · simp only [extractGnamesMethod1, e₁]
    ring
  · simp only [extractLegacyGnames, e₁]
    have harg : pattern_addr + 3 + d₁ + 4 + 0x27 + 3 =
        pattern_addr + 3 + 4 + d₁ + 0x27 + 3 := by ring
    rw [harg, e₂]
    ring

/-- Concrete memory for the resolver witness: displacement `16` encoded
at addresses 3..6 and displacement `-4` encoded at addresses 65..68. -/
def resolverMem : Mem := fun a =>
  if a = 3 then some 16
  else if a = 4 ∨ a = 5 ∨ a = 6 then some 0
  else if a = 65 then some 252
  else if a = 66 ∨ a = 67 ∨ a = 68 then some 255
  else none

theorem address_resolver_displacement_witness :
    extractGnamesMethod1 resolverMem 0 = 23 ∧ extractLegacyGnames resolverMem 0 = 65 := by
  have h := address_resolver_displacement resolverMem 0 16 (-4)
    (by decide) (by decide) (by decide) (by decide) (by decide) (by decide)
  refine ⟨?_, ?_⟩
  · rw [h.1]; decide
  · rw [h.2]; decide

/-- C3: the invariant-correction step.  Whenever the resolved pair
violates the structural invariant, GObjects is kept, GNames is replaced
by `gobjects - EXPECTED_OFFSET_DIFF`, and the corrected pair satisfies
the invariant exactly. -/
theorem correction_restores_invariant (gnames gobjects : Int)
    (h : (gobjects - gnames).natAbs ≠ EXPECTED_OFFSET_DIFF) :
    correctAddresses gnames gobjects =
      (gobjects - (EXPECTED_OFFSET_DIFF : Int), gobjects) ∧
    ((correctAddresses gnames gobjects).1 -
      (correctAddresses gnames gobjects).2).natAbs = EXPECTED_OFFSET_DIFF := by
  unfold correctAddresses
  rw [if_pos h]
  refine ⟨rfl, ?_⟩
  simp only [EXPECTED_OFFSET_DIFF]
  omega

/-- Witness for C3, the scenario of §8: `A = 0x1000`, `B = 0x1050`
(difference `0x50 ≠ 0x48`); the corrected A is `0x1008` and B is kept. -/
theorem correction_restores_invariant_witness :
    ((0x1050 - 0x1000 : Int)).natAbs ≠ EXPECTED_OFFSET_DIFF ∧
    correctAddresses 0x1000 0x1050 = (0x1008, 0x1050) := by
  refine ⟨by decide, ?_⟩
  have h := correction_restores_invariant 0x1000 0x1050 (by decide)
  rw [h.1]
  decide

theorem correctAddresses_diff (gnames gobjects : Int) :
    ((correctAddresses gnames gobjects).2 -
      (correctAddresses gnames gobjects).1).natAbs = EXPECTED_OFFSET_DIFF := by
  unfold correctAddresses EXPECTED_OFFSET_DIFF
  split
  · simp
  · next h =>
    omega

theorem finalizeOffsets_cases (base : Int) (p : Option Int × Option Int) :
    finalizeOffsets base p = (none, none) ∨
    ∃ gn go : Int, finalizeOffsets base p = (some gn, some go) ∧
      (go - gn).natAbs = EXPECTED_OFFSET_DIFF := by
  rcases p with ⟨p₁, p₂⟩
  cases p₁ with
  | none => left; rfl
  | some gn =>
    cases p₂ with
    | none => left; rfl
    | some go =>
      simp only [finalizeOffsets]
      by_cases h : gn ≠ 0 ∧ go ≠ 0
      · rw [if_pos h]
        right
        refine ⟨(correctAddresses gn go).1 - base, (correctAddresses gn go).2 - base,
          rfl, ?_⟩
        have hb : (correctAddresses gn go).2 - base - ((correctAddresses gn go).1 - base) =
            (correctAddresses gn go).2 - (correctAddresses gn go).1 := by ring
        rw [hb]
        exact correctAddresses_diff gn go
      · rw [if_neg h]
        left
        rfl

/-- C4: `find_offsets` is all-or-nothing.  For every memory state, module
base and module size, either it returns `(None, None)`, or it returns two
offsets whose difference satisfies the structural invariant
`EXPECTED_OFFSET_DIFF = 0x48` exactly (module-relative offsets differ by
the same amount as the underlying absolute addresses, since the base
cancels); it never returns exactly one resolved target. -/
theorem find_offsets_all_or_nothing (mem : Mem) (base : Int) (size : Nat) :
    findOffsets mem base size = (none, none) ∨
    ∃ gnames_offset gobjects_offset : Int,
      findOffsets mem base size = (some gnames_offset, some gobjects_offset) ∧
      (gobjects_offset - gnames_offset).natAbs = EXPECTED_OFFSET_DIFF := by
  unfold findOffsets
  exact finalizeOffsets_cases base _

theorem length_succ_decomp {l : List Nat} {n : Nat} (h : l.length = n + 1) :
    ∃ b t, l = b :: t ∧ t.length = n := by
  cases l with
  | nil => simp at h
  | cons b t => exact ⟨b, t, rfl, by simpa using h⟩

theorem length_four_decomp {l : List Nat} (h : l.length = 4) :
    ∃ b₀ b₁ b₂ b₃, l = [b₀, b₁, b₂, b₃] := by
  obtain ⟨b₀, t₀, rfl, h₀⟩ := length_succ_decomp h
  obtain ⟨b₁, t₁, rfl, h₁⟩ := length_succ_decomp h₀
  obtain ⟨b₂, t₂, rfl, h₂⟩ := length_succ_decomp h₁
  obtain ⟨b₃, t₃, rfl, h₃⟩ := length_succ_decomp h₂
  rw [List.length_eq_zero.mp h₃]
  exact ⟨b₀, b₁, b₂, b₃, rfl⟩

/-- A memory state where the first 4 bytes at address 0 are mapped (and
encode a nonzero float bit pattern) but bytes 4..11 are unmapped, so a
12-byte batched read fails while a 4-byte read succeeds. -/
def holeyVecMem : Mem := fun a =>
  if a = 0 then some 1
  else if a = 1 ∨ a = 2 ∨ a = 3 then some 0
  else none

/-- C8 (counterexample): the batched-read equivalence does not hold for
every state of the underlying memory.  When the 12-byte read fails mid
range, `read_vector3` degrades to the zero vector while the first
`read_float` still succeeds, so the results differ. -/
theorem read_vector3_batched_counterexample :
    readVector3 holeyVecMem 0 ≠
      (readFloat holeyVecMem 0, readFloat holeyVecMem 4, readFloat holeyVecMem 8) := by
  decide

/-- C8 (amended): whenever the whole 12-byte range at `addr` is readable
— the underlying batched read succeeds — `read_vector3(addr)` returns
exactly the triple of the three independent `read_f32` results at
`addr`, `addr+4` and `addr+8` over the same memory contents. -/
theorem read_vector3_eq_three_floats (mem : Mem) (a : Int) (bs : List Nat)
    (hmem : rawReadBytes mem a 12 = some bs) :
    readVector3 mem a =
      (readFloat mem a, readFloat mem (a + 4), readFloat mem (a + 8)) := by
  obtain ⟨l₁, l₂, h₁, h₂, rfl⟩ := rawReadBytes_split mem 4 8 a bs hmem
  obtain ⟨l₂₁, l₂₂, h₂₁, h₂₂, rfl⟩ :=
    rawReadBytes_split mem 4 4 (a + 4) l₂ (by simpa using h₂)
  obtain ⟨b₀, b₁, b₂, b₃, rfl⟩ := length_four_decomp (rawReadBytes_length mem 4 a l₁ h₁)
  obtain ⟨b₄, b₅, b₆, b₇, rfl⟩ :=
    length_four_decomp (rawReadBytes_length mem 4 (a + 4) l₂₁ h₂₁)
  obtain ⟨b₈, b₉, b₁₀, b₁₁, rfl⟩ :=
    length_four_decomp (rawReadBytes_length mem 4 (a + 4 + 4) l₂₂ h₂₂)
  have h₂₂a : rawReadBytes mem (a + 8) 4 = some [b₈, b₉, b₁₀, b₁₁] := by
    have : a + 4 + (4 : Nat) = a + 8 := by push_cast; ring
    rw [← this]
    exact h₂₂
  unfold readVector3 readBytes readFloat
  rw [hmem, h₁, h₂₁, h₂₂a]
  rfl

/-- A fully mapped 12-byte region for the C8 witness. -/
def fullVecMem : Mem := fun a =>
  if 0 ≤ a ∧ a < 12 then some a.toNat else none

theorem read_vector3_eq_three_floats_witness :
    rawReadBytes fullVecMem 0 12 = some [0, 1, 2, 3, 4, 5, 6, 7, 8, 9, 10, 11] ∧
    readVector3 fullVecMem 0 =
      (readFloat fullVecMem 0, readFloat fullVecMem 4, readFloat fullVecMem 8) := by
  refine ⟨by decide, ?_⟩
  exact read_vector3_eq_three_floats fullVecMem 0
    [0, 1, 2, 3, 4, 5, 6, 7, 8, 9, 10, 11] (by decide)

theorem packVehicleInputs_length (i : VehicleInputs) :
    (packVehicleInputs i).length = 32 := by
  simp [packVehicleInputs, encodeU32LE]

theorem unpackF32x3_isSome {bs : List Nat} (h : bs.length = 12) :
    (unpackF32x3 bs).isSome = true := by
  obtain ⟨b₀, t₀, rfl, h₀⟩ := length_succ_decomp h
  obtain ⟨b₁, t₁, rfl, h₁⟩ := length_succ_decomp h₀
  obtain ⟨b₂, t₂, rfl, h₂⟩ := length_succ_decomp h₁
  obtain ⟨b₃, t₃, rfl, h₃⟩ := length_succ_decomp h₂
  obtain ⟨b₄, t₄, rfl, h₄⟩ := length_succ_decomp h₃
  obtain ⟨b₅, t₅, rfl, h₅⟩ := length_succ_decomp h₄
  obtain ⟨b₆, t₆, rfl, h₆⟩ := length_succ_decomp h₅
  obtain ⟨b₇, t₇, rfl, h₇⟩ := length_succ_decomp h₆
  obtain ⟨b₈, t₈, rfl, h₈⟩ := length_succ_decomp h₇
  obtain ⟨b₉, t₉, rfl, h₉⟩ := length_succ_decomp h₈
  obtain ⟨b₁₀, t₁₀, rfl, h₁₀⟩ := length_succ_decomp h₉
  obtain ⟨b₁₁, t₁₁, rfl, h₁₁⟩ := length_succ_decomp h₁₀
  rw [List.length_eq_zero.mp h₁₁]
  rfl

theorem unpackI32x3_isSome {bs : List Nat} (h : bs.length = 12) :
    (unpackI32x3 bs).isSome = true := by
  obtain ⟨b₀, t₀, rfl, h₀⟩ := length_succ_decomp h
  obtain ⟨b₁, t₁, rfl, h₁⟩ := length_succ_decomp h₀
  obtain ⟨b₂, t₂, rfl, h₂⟩ := length_succ_decomp h₁
  obtain ⟨b₃, t₃, rfl, h₃⟩ := length_succ_decomp h₂
  obtain ⟨b₄, t₄, rfl, h₄⟩ := length_succ_decomp h₃
  obtain ⟨b₅, t₅, rfl, h₅⟩ := length_succ_decomp h₄
  obtain ⟨b₆, t₆, rfl, h₆⟩ := length_succ_decomp h₅
  obtain ⟨b₇, t₇, rfl, h₇⟩ := length_succ_decomp h₆
  obtain ⟨b₈, t₈, rfl, h₈⟩ := length_succ_decomp h₇
  obtain ⟨b₉, t₉, rfl, h₉⟩ := length_succ_decomp h₈
  obtain ⟨b₁₀, t₁₀, rfl, h₁₀⟩ := length_succ_decomp h₉
  obtain ⟨b₁₁, t₁₁, rfl, h₁₁⟩ := length_succ_decomp h₁₀
  rw [List.length_eq_zero.mp h₁₁]
  rfl

theorem unpackVehicleInputs_isSome {bs : List Nat} (h : bs.length = 32) :
    (unpackVehicleInputs bs).isSome = true := by
  obtain ⟨b₀, t₀, rfl, h₀⟩ := length_succ_decomp h
  obtain ⟨b₁, t₁, rfl, h₁⟩ := length_succ_decomp h₀
  obtain ⟨b₂, t₂, rfl, h₂⟩ := length_succ_decomp h₁
  obtain ⟨b₃, t₃, rfl, h₃⟩ := length_succ_decomp h₂
  obtain ⟨b₄, t₄, rfl, h₄⟩ := length_succ_decomp h₃
  obtain ⟨b₅, t₅, rfl, h₅⟩ := length_succ_decomp h₄
  obtain ⟨b₆, t₆, rfl, h₆⟩ := length_succ_decomp h₅
  obtain ⟨b₇, t₇, rfl, h₇⟩ := length_succ_decomp h₆
  obtain ⟨b₈, t₈, rfl, h₈⟩ := length_succ_decomp h₇
  obtain ⟨b₉, t₉, rfl, h₉⟩ := length_succ_decomp h₈
  obtain ⟨b₁₀, t₁₀, rfl, h₁₀⟩ := length_succ_decomp h₉
  obtain ⟨b₁₁, t₁₁, rfl, h₁₁⟩ := length_succ_decomp h₁₀
  obtain ⟨b₁₂, t₁₂, rfl, h₁₂⟩ := length_succ_decomp h₁₁
  obtain ⟨b₁₃, t₁₃, rfl, h₁₃⟩ := length_succ_decomp h₁₂
  obtain ⟨b₁₄, t₁₄, rfl, h₁₄⟩ := length_succ_decomp h₁₃
  obtain ⟨b₁₅, t₁₅, rfl, h₁₅⟩ := length_succ_decomp h₁₄
  obtain ⟨b₁₆, t₁₆, rfl, h₁₆⟩ := length_succ_decomp h₁₅
  obtain ⟨b₁₇, t₁₇, rfl, h₁₇⟩ := length_succ_decomp h₁₆
  obtain ⟨b₁₈, t₁₈, rfl, h₁₈⟩ := length_succ_decomp h₁₇
  obtain ⟨b₁₉, t₁₉, rfl, h₁₉⟩ := length_succ_decomp h₁₈
  obtain ⟨b₂₀, t₂₀, rfl, h₂₀⟩ := length_succ_decomp h₁₉
  obtain ⟨b₂₁, t₂₁, rfl, h₂₁⟩ := length_succ_decomp h₂₀
  obtain ⟨b₂₂, t₂₂, rfl, h₂₂⟩ := length_succ_decomp h₂₁
  obtain ⟨b₂₃, t₂₃, rfl, h₂₃⟩ := length_succ_decomp h₂₂
  obtain ⟨b₂₄, t₂₄, rfl, h₂₄⟩ := length_succ_decomp h₂₃
  obtain ⟨b₂₅, t₂₅, rfl, h₂₅⟩ := length_succ_decomp h₂₄
  obtain ⟨b₂₆, t₂₆, rfl, h₂₆⟩ := length_succ_decomp h₂₅
  obtain ⟨b₂₇, t₂₇, rfl, h₂₇⟩ := length_succ_decomp h₂₆
  obtain ⟨b₂₈, t₂₈, rfl, h₂₈⟩ := length_succ_decomp h₂₇
  obtain ⟨b₂₉, t₂₉, rfl, h₂₉⟩ := length_succ_decomp h₂₈
  obtain ⟨b₃₀, t₃₀, rfl, h₃₀⟩ := length_succ_decomp h₂₉
  obtain ⟨b₃₁, t₃₁, rfl, h₃₁⟩ := length_succ_decomp h₃₀
  rw [List.length_eq_zero.mp h₃₁]
  rfl

/-- C7: failure degradation.  Whenever the underlying memory access
fails (some byte of the accessed range is unmapped, so the raw read
returns `none`), every primitive and composite read returns its
documented zero-value sentinel — `0` for the integer and byte reads, bit
pattern `0` (`0.0`) for the float read, the empty string, `size` zero
bytes for the raw-buffer read, the zero vector/rotator and the all-zero
input dictionary for the composite reads — and, the embedding being
total, never an exception; and both write operations return `false`
(rather than raising) whenever the underlying raw write fails. -/
theorem reads_degrade_to_sentinels (mem : Mem) (w : Writable) (a : Int)
    (max_length : Nat) (data : List Nat) (i : VehicleInputs) :
    (rawReadBytes mem a 4 = none →
      readInt mem a = 0 ∧ readUint mem a = 0 ∧ readFloat mem a = 0) ∧
    (rawReadBytes mem a 8 = none →
      readLonglong mem a = 0 ∧ readString mem a max_length = []) ∧
    (rawReadBytes mem a 1 = none → readUchar mem a = 0) ∧
    (∀ n, rawReadBytes mem a n = none → readBytes mem a n = List.replicate n 0) ∧
    (rawReadBytes mem a 12 = none →
      readVector3 mem a = (0, 0, 0) ∧ readRotator mem a = (0, 0, 0)) ∧
    (rawReadBytes mem a 32 = none → readVehicleInputs mem a = zeroDecodedInputs) ∧
    (w a data.length = false → writeBytes w a data = false) ∧
    (w a 32 = false → writeVehicleInputs w a i = false) := by
  refine ⟨?_, ?_, ?_, ?_, ?_, ?_, ?_, ?_⟩
  · intro h
    unfold readInt readUint readFloat
    rw [h]
    exact ⟨rfl, rfl, rfl⟩
  · intro h
    have hll : readLonglong mem a = 0 := by unfold readLonglong; rw [h]
    refine ⟨hll, ?_⟩
    unfold readString
    rw [hll]
    rfl
  · intro h
    unfold readUchar
    rw [h]
  · intro n h
    unfold readBytes
    rw [h]
  · intro h
    have hb : readBytes mem a 12 = List.replicate 12 0 := by unfold readBytes; rw [h]
    constructor
    · unfold readVector3
      rw [hb]
      decide
    · unfold readRotator
      rw [hb]
      have hrep : List.replicate 12 (0 : Nat) = [0, 0, 0, 0, 0, 0, 0, 0, 0, 0, 0, 0] := rfl
      rw [hrep]
      norm_num [unpackI32x3, toSigned32, dec4]
  · intro h
    have hb : readBytes mem a 32 = List.replicate 32 0 := by unfold readBytes; rw [h]
    unfold readVehicleInputs
    rw [hb]
    decide
  · intro h
    unfold writeBytes
    rw [h]
  · intro h
    unfold writeVehicleInputs writeBytes
    rw [packVehicleInputs_length, h]

/-- The everywhere-unmapped memory and never-writable target used to
witness the failure-degradation law. -/
def failMem : Mem := fun _ => none

/-- A writability state where every raw write fails. -/
def failWritable : Writable := fun _ _ => false

theorem reads_degrade_to_sentinels_witness :
    readInt failMem 0 = 0 ∧ readUint failMem 0 = 0 ∧ readFloat failMem 0 = 0 ∧
    readLonglong failMem 0 = 0 ∧ readString failMem 0 256 = [] ∧
    readUchar failMem 0 = 0 ∧ readBytes failMem 0 3 = [0, 0, 0] ∧
    readVector3 failMem 0 = (0, 0, 0) ∧ readRotator failMem 0 = (0, 0, 0) ∧
    readVehicleInputs failMem 0 = zeroDecodedInputs ∧
    writeBytes failWritable 0 [1, 2] = false ∧
    writeVehicleInputs failWritable 0 resetInputs = false := by
  have h := reads_degrade_to_sentinels failMem failWritable 0 256 [1, 2] resetInputs
  obtain ⟨h₁, h₂, h₃, h₄, h₅, h₆, h₇, h₈⟩ := h
  have r₁ := h₁ rfl
  have r₂ := h₂ rfl
  have r₄ := h₄ 3 rfl
  have r₅ := h₅ rfl
  exact ⟨r₁.1, r₁.2.1, r₁.2.2, r₂.1, r₂.2, h₃ rfl, by rw [r₄]; decide,
    r₅.1, r₅.2, h₆ rfl, h₇ rfl, h₈ rfl⟩

/-- C10: a failed raw-bytes read returns a buffer of exactly `size` zero
bytes, never a shorter one, so `read_bytes` always returns exactly
`size` bytes and every composite decoder's `struct.unpack` succeeds —
the unpack-failure (`except`) branches of `read_vector3`, `read_rotator`
and `read_vehicle_inputs` are unreachable, on failed reads included. -/
theorem read_bytes_zero_fill_safety (mem : Mem) (a : Int) (n : Nat) :
    (rawReadBytes mem a n = none → readBytes mem a n = List.replicate n 0) ∧
    (readBytes mem a n).length = n ∧
    (unpackF32x3 (readBytes mem a 12)).isSome = true ∧
    (unpackI32x3 (readBytes mem a 12)).isSome = true ∧
    (unpackVehicleInputs (readBytes mem a 32)).isSome = true := by
  have hlen : ∀ m, (readBytes mem a m).length = m := by
    intro m
    unfold readBytes
    cases hr : rawReadBytes mem a m with
    | some bs => exact rawReadBytes_length mem m a bs hr
    | none => simp
  refine ⟨?_, hlen n, unpackF32x3_isSome (hlen 12), unpackI32x3_isSome (hlen 12),
    unpackVehicleInputs_isSome (hlen 32)⟩
  intro h
  unfold readBytes
  rw [h]

theorem read_bytes_zero_fill_safety_witness :
    readBytes failMem 0 5 = List.replicate 5 0 ∧
    (readBytes failMem 0 5).length = 5 ∧
    (unpackF32x3 (readBytes failMem 0 12)).isSome = true ∧
    (unpackI32x3 (readBytes failMem 0 12)).isSome = true ∧
    (unpackVehicleInputs (readBytes failMem 0 32)).isSome = true := by
  have h := read_bytes_zero_fill_safety failMem 0 5
  exact ⟨h.1 rfl, h.2.1, h.2.2.1, h.2.2.2.1, h.2.2.2.2⟩

/-- C6: read/write round trip.  Packing a named control-input structure
with `write_vehicle_inputs`'s layout and decoding the same 32 bytes with
`read_vehicle_inputs` recovers every named field: the five float fields
bit-exactly (the bit-pattern model of "within floating-point epsilon")
and the handbrake/jump/boost flag bits exactly (booleans come back as
the ints `1`/`0`, as the reader produces). -/
theorem vehicle_inputs_round_trip (mem : Mem) (a : Int) (i : VehicleInputs)
    (ht : i.throttle < 4294967296) (hs : i.steer < 4294967296)
    (hp : i.pitch < 4294967296) (hy : i.yaw < 4294967296)
    (hr : i.roll < 4294967296)
    (hmem : rawReadBytes mem a 32 = some (packVehicleInputs i)) :
    (readVehicleInputs mem a).throttle = i.throttle ∧
    (readVehicleInputs mem a).steer = i.steer ∧
    (readVehicleInputs mem a).pitch = i.pitch ∧
    (readVehicleInputs mem a).yaw = i.yaw ∧
    (readVehicleInputs mem a).roll = i.roll ∧
    (readVehicleInputs mem a).handbrake = (if i.handbrake then 1 else 0) ∧
    (readVehicleInputs mem a).jump = (if i.jump then 1 else 0) ∧
    (readVehicleInputs mem a).boost = (if i.boost then 1 else 0) := by
  obtain ⟨t, s, p, y, r, hb, j, bo⟩ := i
  simp only at ht hs hp hy hr
  have hbytes : readBytes mem a 32 = packVehicleInputs ⟨t, s, p, y, r, hb, j, bo⟩ := by
    unfold readBytes
    rw [hmem]
  unfold readVehicleInputs
  rw [hbytes]
  simp only [packVehicleInputs, encodeU32LE, List.cons_append, List.nil_append,
    unpackVehicleInputs]
  cases hb <;> cases j <;> cases bo <;>
    (refine ⟨?_, ?_, ?_, ?_, ?_, ?_, ?_, ?_⟩ <;>
      first
      | (simp only [dec4]; omega)
      | rfl)

/-- Concrete inputs for the round-trip witness: `1.0f` throttle, `-1.0f`
steer, assorted bit patterns, handbrake and boost set, jump clear. -/
def rtInputs : VehicleInputs :=
  ⟨1065353216, 3212836864, 1078530011, 5, 0, true, false, true⟩

/-- A 32-byte memory region holding exactly the packed `rtInputs`. -/
def rtMem : Mem := fun a =>
  if 0 ≤ a ∧ a < 32 then some ((packVehicleInputs rtInputs).getD a.toNat 0) else none

theorem vehicle_inputs_round_trip_witness :
    (readVehicleInputs rtMem 0).throttle = 1065353216 ∧
    (readVehicleInputs rtMem 0).steer = 3212836864 ∧
    (readVehicleInputs rtMem 0).handbrake = 1 ∧
    (readVehicleInputs rtMem 0).jump = 0 ∧
    (readVehicleInputs rtMem 0).boost = 1 := by
  have h := vehicle_inputs_round_trip rtMem 0 rtInputs (by decide) (by decide)
    (by decide) (by decide) (by decide) (by decide)
  refine ⟨h.1, h.2.1, ?_, ?_, ?_⟩
  · rw [h.2.2.2.2.2.1]; decide
  · rw [h.2.2.2.2.2.2.1]; decide
  · rw [h.2.2.2.2.2.2.2]; decide

/-- C5: the cache TTL law.  `set(k,v)` followed immediately by `get(k)`
returns `v` (for any nonnegative effective TTL, such as the defaults);
a `get(k)` performed when `now - write_timestamp` strictly exceeds the
effective TTL (per-call override or construction-time default) deletes
the entry, counts a miss and returns a miss, with `stats().size` down by
exactly one; a `get(k)` whose age is not strictly greater than the TTL
is a hit returning the stored value; and the memory manager's cache is
constructed with the 50 ms default TTL. -/
theorem cache_ttl_law {α : Type} (c : Cache α) (k : String) (v : α)
    (ttl : Option ℚ) (now : ℚ) :
    (0 ≤ ttl.getD c.default_ttl →
      ((c.set k v now).get k ttl now).1 = some v) ∧
    (∀ v₀ ts, c.lookup k = some (v₀, ts) → now - ts > ttl.getD c.default_ttl →
      (c.get k ttl now).1 = none ∧
      (c.get k ttl now).2.misses = c.misses + 1 ∧
      (c.get k ttl now).2.stats.size + 1 = c.stats.size) ∧
    (∀ v₀ ts, c.lookup k = some (v₀, ts) → now - ts ≤ ttl.getD c.default_ttl →
      (c.get k ttl now).1 = some v₀ ∧
      (c.get k ttl now).2.hits = c.hits + 1) ∧
    mmCacheDefaultTtl = 1 / 20 := by
  refine ⟨?_, ?_, ?_, by norm_num [mmCacheDefaultTtl]⟩
  · intro h0
    have hf : ((c.set k v now).entries.find? (fun e => e.1 == k)) = some (k, v, now) := by
      unfold Cache.set
      apply List.find?_cons_of_pos
      simp
    have hd : (c.set k v now).default_ttl = c.default_ttl := rfl
    simp only [Cache.get, hf, hd]
    rw [if_neg (by simp only [sub_self, gt_iff_lt, not_lt]; exact h0)]
  · intro v₀ ts hl hexp
    obtain ⟨e, hf, he⟩ : ∃ e, c.entries.find? (fun x => x.1 == k) = some e ∧
        e.2 = (v₀, ts) := by
      unfold Cache.lookup at hl
      cases hfe : c.entries.find? (fun x => x.1 == k) with
      | none => rw [hfe] at hl; simp at hl
      | some e => rw [hfe] at hl; simp at hl; exact ⟨e, rfl, hl⟩
    obtain ⟨k', v', ts'⟩ := e
    simp only [Prod.mk.injEq] at he
    obtain ⟨hv', hts'⟩ := he
    subst hv' hts'
    simp only [Cache.get, hf]
    rw [if_pos hexp]
    refine ⟨rfl, rfl, ?_⟩
    have hmem := List.mem_of_find?_eq_some hf
    have hpa := List.find?_some hf
    show (c.entries.eraseP (fun e => e.1 == k)).length + 1 = c.entries.length
    exact @List.length_eraseP_add_one _ (fun e => e.1 == k) c.entries
      (k', v', ts') hmem hpa
  · intro v₀ ts hl hfresh
    obtain ⟨e, hf, he⟩ : ∃ e, c.entries.find? (fun x => x.1 == k) = some e ∧
        e.2 = (v₀, ts) := by
      unfold Cache.lookup at hl
      cases hfe : c.entries.find? (fun x => x.1 == k) with
      | none => rw [hfe] at hl; simp at hl
      | some e => rw [hfe] at hl; simp at hl; exact ⟨e, rfl, hl⟩
    obtain ⟨k', v', ts'⟩ := e
    simp only [Prod.mk.injEq] at he
    obtain ⟨hv', hts'⟩ := he
    subst hv' hts'
    simp only [Cache.get, hf]
    rw [if_neg (by simpa using hfresh)]
    exact ⟨rfl, rfl⟩

/-- The cache used by the C5 witness: the memory manager's 50 ms-TTL
cache holding `"k" ↦ 42` written at time 0. -/
def cacheW : Cache Nat := (Cache.init Nat mmCacheDefaultTtl).set "k" 42 0

/-- Witness for C5, the §8 scenario: ttl 0.05 s, `set("k",42)` at t=0;
`get` at t=0.04 is a hit returning 42; `get` at t=0.06 is a miss that
removes the entry. -/
theorem cache_ttl_law_witness :
    (cacheW.get "k" none (4/100)).1 = some 42 ∧
    (cacheW.get "k" none (6/100)).1 = none ∧
    (cacheW.get "k" none (6/100)).2.misses = cacheW.misses + 1 ∧
    (cacheW.get "k" none (6/100)).2.stats.size + 1 = cacheW.stats.size ∧
    (((Cache.init Nat mmCacheDefaultTtl).set "q" 7 1).get "q" none 1).1 = some 7 := by
  have hlook : cacheW.lookup "k" = some (42, 0) := rfl
  have hdef : cacheW.default_ttl = mmCacheDefaultTtl := rfl
  have h₄ := (cache_ttl_law cacheW "k" 42 none (4/100)).2.2.1 42 0 hlook
    (by rw [Option.getD_none, hdef]; norm_num [mmCacheDefaultTtl])
  have h₆ := (cache_ttl_law cacheW "k" 42 none (6/100)).2.1 42 0 hlook
    (by rw [Option.getD_none, hdef]; norm_num [mmCacheDefaultTtl])
  have hset := (cache_ttl_law (Cache.init Nat mmCacheDefaultTtl) "q" 7 none 1).1
    (by rw [Option.getD_none]; norm_num [Cache.init, mmCacheDefaultTtl])
  exact ⟨h₄.1, h₆.1, h₆.2.1, h₆.2.2, hset⟩

/-- C9: the continuous-write loop lifecycle.  `start_writing` is
idempotent — a strict no-op (same state, no effect) when the loop is
already running.  `stop_writing`, invoked while the loop runs with a
known (truthy) input address and a live thread, emits exactly the
ordered effect trace: one final reset write of the all-zero control
fields to that address, the 0.1 s settle sleep, and then the thread
join bounded by a 1-second timeout — the reset write strictly precedes
the join, leaving the target in a neutral input state on shutdown. -/
theorem writer_lifecycle (s : WriterState) (addr : Int) :
    (s.write_running = true → startWriting s = (s, [])) ∧
    (s.write_running = true → s.input_address = some addr → addr ≠ 0 →
      s.thread_alive = true →
      stopWriting s = ({ s with write_running := false },
        [WriterAction.writeInputs addr resetInputs, WriterAction.sleep 0.1,
         WriterAction.joinThread 1]) ∧
      resetInputs = ⟨0, 0, 0, 0, 0, false, false, false⟩) := by
  constructor
  · intro h
    unfold startWriting
    rw [if_pos h]
  · intro hrun haddr hnz halive
    refine ⟨?_, rfl⟩
    unfold stopWriting
    rw [if_neg (by simp [hrun])]
    have ht : truthy s.input_address = true := by
      rw [haddr]
      simpa [truthy] using hnz
    rw [ht, haddr, halive]
    rfl

theorem writer_lifecycle_witness :
    startWriting ⟨true, some 100, none, true⟩ = (⟨true, some 100, none, true⟩, []) ∧
    stopWriting ⟨true, some 100, none, true⟩ = (⟨false, some 100, none, true⟩,
      [WriterAction.writeInputs 100 resetInputs, WriterAction.sleep 0.1,
       WriterAction.joinThread 1]) := by
  have h := writer_lifecycle ⟨true, some 100, none, true⟩ 100
  refine ⟨h.1 rfl, ?_⟩
  have h₂ := h.2 rfl rfl (by decide) rfl
  rw [h₂.1]

end HazeSDK
